/-
Verification of the crop/gravity resolution engine and the Prometheus
observability plumbing of the imgproxy processing stage.

The Go source under scrutiny is `src/processing/crop.go`, which holds two
units: the crop engine (`cropImage`, `crop`, `cropToResult`) and the
Prometheus metrics module (`Init`, `StartRequest`, the segment starters,
`IncrementErrorsTotal`, the buffer-size setters, `StartServer`).

The crop engine calls four helpers that live outside the provided sources
(`imath.MinNonZero`, `imath.Scale`, `calcPosition`,
`options.GravityOptions.RotateAndFlip`, `vips.Image.Crop`); those are
modelled from the specification, each with a doc comment saying so.
Everything else is translated directly from the Go source.

Machine integers: Go `int` dimensions are modelled as `Nat` (the data model
constrains crop sizes and image dimensions to be non-negative) and gravity
offsets as `Int` (the Go field is a float64 cast with `int(...)`, and may be
negative).  Stateful Go code (in-place image mutation, the metrics
registry) is modelled by explicit state passing.
-/
import Mathlib

set_option maxHeartbeats 1000000

namespace Imgproxy

/-- A raster image reduced to what the crop engine reads and writes: its
pixel dimensions.  The in-place crop replaces them with the crop
rectangle's. -/
structure Image where
  width : Nat
  height : Nat
deriving DecidableEq, Repr

/-- The gravity modes of `options.GravityType` that govern the crop
rectangle: edge/corner anchors, the content-aware `smart` mode, and the
absolute-offset family. -/
inductive GravityType where
  | center
  | north
  | south
  | east
  | west
  | northWest
  | northEast
  | southWest
  | southEast
  | smart
  | absoluteOffset
deriving DecidableEq, Repr

/-- `options.GravityOptions`: a gravity mode plus its configured offsets.
The Go offsets are float64 and every use in `crop.go` casts them with
`int(...)`; `x` and `y` hold those cast values. -/
structure GravityOptions where
  type : GravityType
  x : Int
  y : Int
deriving DecidableEq, Repr

/-- The rectangle handed to the underlying in-place crop:
`img.Crop(left, top, width, height)`. -/
structure CropRect where
  left : Int
  top : Int
  width : Nat
  height : Nat
deriving DecidableEq, Repr

/-- Modelled from the spec: `imath.MinNonZero` (not under `src/`), the
Bounds Utility `clampToSourceIfBounded(requested, source)`: returns
`source` if `requested == 0`, else `min(requested, source)`. -/
def clampToSourceIfBounded (requested source : Nat) : Nat :=
  if requested = 0 then source else min requested source

/-- Modelled from the spec: `imath.Scale` (not under `src/`), the Bounds
Utility `scaleProportional(dimension, ratio)`: a deterministically rounded
`dimension * ratio`.  The ratio is the exact rational `num / den` and the
rounding is round-half-up, computed as `⌊dimension * num / den + 1/2⌋` in
natural arithmetic. -/
def scaleProportional (dimension num den : Nat) : Nat :=
  (2 * dimension * num + den) / (2 * den)

/-- Clamp an integer into `[lo, hi]` (the resolver's "offsets never error,
they clamp" rule). -/
def clampPos (v lo hi : Int) : Int := max lo (min v hi)

/-- Modelled from the spec: the anchor rule of the Gravity Position
Resolver.  Center halves the slack on both axes; edge modes zero one axis
and center the other; corners combine two edge rules. -/
def anchorBase (W H w h : Nat) (t : GravityType) : Int × Int :=
  let cx : Int := ((W : Int) - w) / 2
  let cy : Int := ((H : Int) - h) / 2
  let mx : Int := (W : Int) - w
  let my : Int := (H : Int) - h
  match t with
  | .center => (cx, cy)
  | .north => (cx, 0)
  | .south => (cx, my)
  | .east => (mx, cy)
  | .west => (0, cy)
  | .northWest => (0, 0)
  | .northEast => (mx, 0)
  | .southWest => (0, my)
  | .southEast => (mx, my)
  | .smart => (cx, cy)
  | .absoluteOffset => (0, 0)

/-- Modelled from the spec: `calcPosition` (not under `src/`), the Gravity
Position Resolver.  Anchor modes add the configured offset to the anchor
position and clamp into range; Smart uses the pre-supplied origin when it
fits fully inside the source, else falls back to the plain Center anchor;
absolute-offset modes return the offset clamped into range.  The source
calls it with `allowOverflow = false`; the spec specifies only that case,
so the flag is omitted. -/
def calcPosition (W H w h : Nat) (g : GravityOptions) : Int × Int :=
  match g.type with
  | .smart =>
      if 0 ≤ g.x ∧ g.x + w ≤ (W : Int) ∧ 0 ≤ g.y ∧ g.y + h ≤ (H : Int) then
        (g.x, g.y)
      else
        (((W : Int) - w) / 2, ((H : Int) - h) / 2)
  | .absoluteOffset =>
      (clampPos g.x 0 ((W : Int) - w), clampPos g.y 0 ((H : Int) - h))
  | t =>
      let base := anchorBase W H w h t
      (clampPos (base.1 + g.x) 0 ((W : Int) - w),
       clampPos (base.2 + g.y) 0 ((H : Int) - h))

/-- Modelled from the spec: `vips.Image.Crop` (not under `src/`), the
in-place crop.  It rejects a rectangle violating its bounds contract
(`InvalidGeometry`); on success the image's dimensions become the
rectangle's. -/
def Image.crop (img : Image) (left top : Int) (w h : Nat) : Except Unit Image :=
  if 0 ≤ left ∧ 0 ≤ top ∧ left + w ≤ (img.width : Int) ∧ top + h ≤ (img.height : Int)
  then .ok ⟨w, h⟩
  else .error ()

/-- The rectangle `cropImage` (crop.go, lines 10–43) passes to the
underlying in-place crop, `none` when it returns without cropping: `none`
when both requested dimensions are zero or when the clamped crop
equals/exceeds the source on both axes; otherwise the Smart-shortcut
rectangle when its containment test passes, else the resolver's position
with the clamped size. -/
def cropImageCall (img : Image) (cropWidth cropHeight : Nat)
    (gravity : GravityOptions) : Option CropRect :=
  if cropWidth = 0 ∧ cropHeight = 0 then none
  else
    let imgWidth := img.width
    let imgHeight := img.height
    let cw := clampToSourceIfBounded cropWidth imgWidth
    let ch := clampToSourceIfBounded cropHeight imgHeight
    if imgWidth ≤ cw ∧ imgHeight ≤ ch then none
    else if gravity.type = .smart ∧ gravity.x + cw ≤ (imgWidth : Int) ∧
        gravity.y + ch ≤ (imgHeight : Int) then
      some ⟨gravity.x, gravity.y, cw, ch⟩
    else
      let p := calcPosition imgWidth imgHeight cw ch gravity
      some ⟨p.1, p.2, cw, ch⟩

/-- `cropImage` (crop.go, lines 10–43): the Crop Executor.  Returns the
image unchanged on the no-op paths, otherwise applies the in-place crop at
the rectangle of `cropImageCall` and propagates its failure. -/
def cropImage (img : Image) (cropWidth cropHeight : Nat)
    (gravity : GravityOptions) : Except Unit Image :=
  match cropImageCall img cropWidth cropHeight gravity with
  | none => .ok img
  | some r => Image.crop img r.left r.top r.width r.height

/-- The per-request pipeline state read by the Pipeline Crop Stage
(`pipelineContext` fields used by `crop`): the requested crop size, the
request's crop gravity options, and the accumulated rotation/flip. -/
structure PipelineContext where
  cropWidth : Nat
  cropHeight : Nat
  cropGravity : GravityOptions
  angle : Nat
  flip : Bool
deriving DecidableEq, Repr

/-- The resize policies of `options.ResizeType`; only `fillDown` matters to
the Result Crop Stage. -/
inductive ResizingType where
  | fit
  | fill
  | fillDown
  | force
  | auto
deriving DecidableEq, Repr

/-- The processing options read by the two crop stages: the request's own
rotation, its gravity, the resize policy, and the fields `resultSize`
reads. -/
structure ProcessingOptions where
  rotate : Nat
  gravity : GravityOptions
  resizingType : ResizingType
  resultWidth : Nat
  resultHeight : Nat
deriving DecidableEq, Repr

/-- Modelled from the spec: `resultSize(po)` (not under `src/`) computes
the nominal result width/height externally; it is modelled as reading the
two corresponding option fields. -/
def resultSize (po : ProcessingOptions) : Nat × Nat :=
  (po.resultWidth, po.resultHeight)

/-- The arguments `crop` (crop.go, lines 45–57) delegates to the Crop
Executor.  `raf` stands for `options.GravityOptions.RotateAndFlip`, which
is not under `src/` and whose reorientation formula the spec leaves
unspecified; the stage applies it to a local copy of the gravity, first
with the accumulated angle and flip, then with the request's own rotation
and no flip.  The requested width and height are swapped exactly when
`(pctx.angle + po.Rotate) % 180 == 90`. -/
def cropCall (raf : GravityOptions → Nat → Bool → GravityOptions)
    (pctx : PipelineContext) (po : ProcessingOptions) :
    Nat × Nat × GravityOptions :=
  let opts := raf (raf pctx.cropGravity pctx.angle pctx.flip) po.rotate false
  if (pctx.angle + po.rotate) % 180 = 90 then
    (pctx.cropHeight, pctx.cropWidth, opts)
  else
    (pctx.cropWidth, pctx.cropHeight, opts)

/-- `crop` (crop.go, lines 45–57): the Pipeline Crop Stage.  It reads the
pipeline state, never writes it (the Go code reorients a local copy of the
gravity struct), and hands the possibly-swapped dimensions and reoriented
gravity to `cropImage`; the pair returned is the post-call pipeline state
together with the executor's result. -/
def crop (raf : GravityOptions → Nat → Bool → GravityOptions)
    (pctx : PipelineContext) (img : Image) (po : ProcessingOptions) :
    PipelineContext × Except Unit Image :=
  let c := cropCall raf pctx po
  (pctx, cropImage img c.1 c.2.1 c.2.2)

/-- The fill-down correction of `cropToResult` (crop.go, lines 63–73): if
the nominal width exceeds the actual image width, scale the height by
`imgWidth / resultWidth` and clamp the width to the image's; then the same
with the roles of the axes exchanged, using the already-corrected height. -/
def fillDownSize (resultWidth resultHeight imgWidth imgHeight : Nat) :
    Nat × Nat :=
  let rh1 := if imgWidth < resultWidth then
    scaleProportional resultHeight imgWidth resultWidth else resultHeight
  let rw1 := if imgWidth < resultWidth then imgWidth else resultWidth
  let rw2 := if imgHeight < rh1 then
    scaleProportional rw1 imgHeight rh1 else rw1
  let rh2 := if imgHeight < rh1 then imgHeight else rh1
  (rw2, rh2)

/-- `cropToResult` (crop.go, lines 59–76): the Result Crop Stage.  It
computes the nominal result size, applies the fill-down correction when the
policy is `ResizeFillDown`, and delegates to the Crop Executor with the
request's plain gravity. -/
def cropToResult (pctx : PipelineContext) (img : Image)
    (po : ProcessingOptions) : PipelineContext × Except Unit Image :=
  let r := resultSize po
  let s := if po.resizingType = .fillDown then
    fillDownSize r.1 r.2 img.width img.height else r
  (pctx, cropImage img s.1 s.2 po.gravity)

namespace Prom

/-- The Prometheus module's package-level state: the `enabled` flag and the
registered collectors, modelled as observation logs (counters as counts,
histogram observations and gauge sets as lists, most recent first). -/
structure PromState where
  enabled : Bool
  requestsTotal : Nat
  errorsTotal : List String
  durationObs : List (String × ℚ)
  bufferSizeObs : List (String × Int)
  bufferDefaultSize : List (String × Int)
  bufferMaxSize : List (String × Int)
deriving DecidableEq, Repr

/-- The package-level initial state: `enabled = false`, nothing registered. -/
def promInitial : PromState :=
  ⟨false, 0, [], [], [], [], []⟩

/-- `Init` (metrics module): returns immediately when the configured
Prometheus bind address is empty; otherwise registers fresh collectors and
sets `enabled`. -/
def Init (prometheusBind : String) (s : PromState) : PromState :=
  if prometheusBind = "" then s
  else { promInitial with enabled := true }

/-- `Enabled` (metrics module). -/
def Enabled (s : PromState) : Bool := s.enabled

/-- `startDuration`: returns a cancel closure that, when invoked, observes
the elapsed seconds on the named histogram.  Wall-clock elapsed time is the
closure's `ℚ` argument; the state it updates is the state at cancel time. -/
def startDuration (label : String) : ℚ → PromState → PromState :=
  fun d t => { t with durationObs := (label, d) :: t.durationObs }

/-- `StartRequest`: when disabled, returns a do-nothing cancel func without
touching any metric; when enabled, increments `requests_total` and starts
the request-duration timer. -/
def StartRequest (s : PromState) : PromState × (ℚ → PromState → PromState) :=
  if !s.enabled then (s, fun _ t => t)
  else ({ s with requestsTotal := s.requestsTotal + 1 },
    startDuration "request_duration_seconds")

/-- `StartQueueSegment`: the queue-span timer, no-op cancel when disabled. -/
def StartQueueSegment (s : PromState) :
    PromState × (ℚ → PromState → PromState) :=
  if !s.enabled then (s, fun _ t => t)
  else (s, startDuration "request_span_duration_seconds:queue")

/-- `StartDownloadingSegment`: the downloading-span timer plus the legacy
download-duration timer; no-op cancel when disabled. -/
def StartDownloadingSegment (s : PromState) :
    PromState × (ℚ → PromState → PromState) :=
  if !s.enabled then (s, fun _ t => t)
  else (s, fun d t =>
    startDuration "download_duration_seconds" d
      (startDuration "request_span_duration_seconds:downloading" d t))

/-- `StartProcessingSegment`: the processing-span timer plus the legacy
processing-duration timer; no-op cancel when disabled. -/
def StartProcessingSegment (s : PromState) :
    PromState × (ℚ → PromState → PromState) :=
  if !s.enabled then (s, fun _ t => t)
  else (s, fun d t =>
    startDuration "processing_duration_seconds" d
      (startDuration "request_span_duration_seconds:processing" d t))

/-- `IncrementErrorsTotal`: increments `errors_total{type}` only when
enabled. -/
def IncrementErrorsTotal (t : String) (s : PromState) : PromState :=
  if s.enabled then { s with errorsTotal := t :: s.errorsTotal } else s

/-- `ObserveBufferSize`: observes the buffer-size histogram only when
enabled. -/
def ObserveBufferSize (t : String) (size : Int) (s : PromState) : PromState :=
  if s.enabled then
    { s with bufferSizeObs := (t, size) :: s.bufferSizeObs }
  else s

/-- `SetBufferDefaultSize`: sets the default-size gauge only when enabled. -/
def SetBufferDefaultSize (t : String) (size : Int) (s : PromState) : PromState :=
  if s.enabled then
    { s with bufferDefaultSize := (t, size) :: s.bufferDefaultSize }
  else s

/-- `SetBufferMaxSize`: sets the max-size gauge only when enabled. -/
def SetBufferMaxSize (t : String) (size : Int) (s : PromState) : PromState :=
  if s.enabled then
    { s with bufferMaxSize := (t, size) :: s.bufferMaxSize }
  else s

/-- `StartServer`: returns `nil` immediately when disabled; when enabled it
listens on the configured address and reports a listen failure as an error
(`listenOk` stands for the outcome of `reuseport.Listen`). -/
def StartServer (listenOk : Bool) (s : PromState) :
    PromState × Option String :=
  if !s.enabled then (s, none)
  else if listenOk then (s, none)
  else (s, some "listen failed")

end Prom

end Imgproxy

namespace Imgproxy

lemma clampToSourceIfBounded_le (requested source : Nat) :
    clampToSourceIfBounded requested source ≤ source := by
  unfold clampToSourceIfBounded
  split
  · exact le_refl source
  · exact min_le_right requested source

lemma scaleProportional_le (d num den : Nat) (h : num ≤ den) :
    scaleProportional d num den ≤ d := by
  unfold scaleProportional
  rcases Nat.eq_zero_or_pos den with h0 | h0
  · subst h0
    interval_cases num
    simp
  · have hlt : 2 * d * num + den < 2 * den * (d + 1) := by nlinarith
    exact Nat.le_of_lt_succ (Nat.div_lt_of_lt_mul hlt)

lemma clampPos_bounds (v lo hi : Int) (h : lo ≤ hi) :
    lo ≤ clampPos v lo hi ∧ clampPos v lo hi ≤ hi := by
  unfold clampPos
  exact ⟨le_max_left lo (min v hi), max_le h (min_le_right v hi)⟩

lemma calcPosition_bounds (W H w h : Nat) (g : GravityOptions)
    (hw : w ≤ W) (hh : h ≤ H) :
    0 ≤ (calcPosition W H w h g).1 ∧
      (calcPosition W H w h g).1 + w ≤ (W : Int) ∧
      0 ≤ (calcPosition W H w h g).2 ∧
      (calcPosition W H w h g).2 + h ≤ (H : Int) := by
  have hw' : (w : Int) ≤ (W : Int) := by exact_mod_cast hw
  have hh' : (h : Int) ≤ (H : Int) := by exact_mod_cast hh
  have hwx : (0 : Int) ≤ (W : Int) - w := by omega
  have hhy : (0 : Int) ≤ (H : Int) - h := by omega
  have cx1 : 0 ≤ ((W : Int) - w) / 2 := Int.ediv_nonneg hwx (by norm_num)
  have cx2 : ((W : Int) - w) / 2 ≤ (W : Int) - w := Int.ediv_le_self 2 hwx
  have cy1 : 0 ≤ ((H : Int) - h) / 2 := Int.ediv_nonneg hhy (by norm_num)
  have cy2 : ((H : Int) - h) / 2 ≤ (H : Int) - h := Int.ediv_le_self 2 hhy
  obtain ⟨t, x, y⟩ := g
  have anchor : ∀ bx bv : Int,
      0 ≤ clampPos (bx + x) 0 ((W : Int) - w) ∧
      clampPos (bx + x) 0 ((W : Int) - w) + w ≤ (W : Int) ∧
      0 ≤ clampPos (bv + y) 0 ((H : Int) - h) ∧
      clampPos (bv + y) 0 ((H : Int) - h) + h ≤ (H : Int) := by
    intro bx bv
    have h1 := clampPos_bounds (bx + x) 0 ((W : Int) - w) hwx
    have h2 := clampPos_bounds (bv + y) 0 ((H : Int) - h) hhy
    exact ⟨h1.1, by omega, h2.1, by omega⟩
  cases t
  case smart =>
    simp only [calcPosition]
    split
    case isTrue hfit => exact ⟨hfit.1, hfit.2.1, hfit.2.2.1, hfit.2.2.2⟩
    case isFalse hnf => exact ⟨cx1, by omega, cy1, by omega⟩
  case absoluteOffset =>
    simp only [calcPosition]
    have h1 := clampPos_bounds x 0 ((W : Int) - w) hwx
    have h2 := clampPos_bounds y 0 ((H : Int) - h) hhy
    exact ⟨h1.1, by omega, h2.1, by omega⟩
  all_goals (simp only [calcPosition, anchorBase]; exact anchor _ _)

end Imgproxy

namespace Imgproxy

/-- C1 (counterexample): with Smart gravity carrying a negative offset, the
shortcut containment test passes and `cropImage` reaches the underlying
in-place crop with `left = -10 < 0`, violating the claimed invariant. -/
theorem cropImage_bounds_cex :
    cropImageCall ⟨100, 100⟩ 50 50 ⟨.smart, -10, 0⟩ = some ⟨-10, 0, 50, 50⟩ ∧
      ¬ (0 : Int) ≤ (-10 : Int) := by decide

/-- C1 (amended): every crop rectangle `cropImage` hands to the underlying
in-place crop satisfies `0 ≤ left`, `0 ≤ top`, `left + width ≤ imgWidth`,
`top + height ≤ imgHeight`, provided that a Smart gravity's offsets are
non-negative (any offsets are fine for the other modes, which clamp). -/
theorem cropImage_bounds (img : Image) (cw ch : Nat) (g : GravityOptions)
    (r : CropRect)
    (hsm : g.type = GravityType.smart → 0 ≤ g.x ∧ 0 ≤ g.y)
    (hc : cropImageCall img cw ch g = some r) :
    0 ≤ r.left ∧ 0 ≤ r.top ∧ r.left + r.width ≤ (img.width : Int) ∧
      r.top + r.height ≤ (img.height : Int) := by
  simp only [cropImageCall] at hc
  split at hc
  · exact absurd hc (by simp)
  · split at hc
    · exact absurd hc (by simp)
    · split at hc
      case isTrue hs =>
        obtain ⟨ht, hx, hy⟩ := hs
        obtain ⟨hx0, hy0⟩ := hsm ht
        cases hc
        exact ⟨hx0, hy0, hx, hy⟩
      case isFalse hs =>
        cases hc
        have hcw := clampToSourceIfBounded_le cw img.width
        have hch := clampToSourceIfBounded_le ch img.height
        have hb := calcPosition_bounds img.width img.height _ _ g hcw hch
        exact ⟨hb.1, hb.2.2.1, hb.2.1, hb.2.2.2⟩

/-- C1 (witness): the amended bounds theorem evaluated at a Smart crop of a
100×100 image at origin (10, 10). -/
theorem cropImage_bounds_witness :
    0 ≤ (10 : Int) ∧ 0 ≤ (10 : Int) ∧ (10 : Int) + (50 : Nat) ≤ ((100 : Nat) : Int) ∧
      (10 : Int) + (50 : Nat) ≤ ((100 : Nat) : Int) :=
  cropImage_bounds ⟨100, 100⟩ 50 50 ⟨.smart, 10, 10⟩ ⟨10, 10, 50, 50⟩
    (by decide) (by decide)

/-- C2: with Smart gravity, once the no-op paths are excluded, the clamped
crop is taken at exactly the pre-supplied origin whenever that origin fits
fully inside the source, and otherwise at the Center anchor position. -/
theorem cropImage_smart_shortcut (img : Image) (cropW cropH cw ch : Nat)
    (X Y : Int)
    (hw : cw = clampToSourceIfBounded cropW img.width)
    (hh : ch = clampToSourceIfBounded cropH img.height)
    (hz : ¬ (cropW = 0 ∧ cropH = 0))
    (hcov : ¬ (img.width ≤ cw ∧ img.height ≤ ch)) :
    (X + cw ≤ (img.width : Int) ∧ Y + ch ≤ (img.height : Int) →
      cropImageCall img cropW cropH ⟨.smart, X, Y⟩ = some ⟨X, Y, cw, ch⟩) ∧
    (¬ (X + cw ≤ (img.width : Int) ∧ Y + ch ≤ (img.height : Int)) →
      cropImageCall img cropW cropH ⟨.smart, X, Y⟩ =
        some ⟨((img.width : Int) - cw) / 2, ((img.height : Int) - ch) / 2,
          cw, ch⟩) := by
  subst hw hh
  constructor
  · intro hfit
    simp only [cropImageCall]
    rw [if_neg hz, if_neg hcov, if_pos ⟨by trivial, hfit.1, hfit.2⟩]
  · intro hnf
    simp only [cropImageCall]
    rw [if_neg hz, if_neg hcov, if_neg (by simp only [true_and]; exact hnf)]
    simp only [calcPosition]
    rw [if_neg (fun hfit => hnf ⟨hfit.2.1, hfit.2.2.2⟩)]

/-- C2 (witness): source 100×100, crop 50×50; Smart offset (10, 10) crops
at (10, 10) directly, offset (60, 60) falls back to Center (25, 25). -/
theorem cropImage_smart_shortcut_witness :
    cropImageCall ⟨100, 100⟩ 50 50 ⟨.smart, 10, 10⟩ = some ⟨10, 10, 50, 50⟩ ∧
    cropImageCall ⟨100, 100⟩ 50 50 ⟨.smart, 60, 60⟩ = some ⟨25, 25, 50, 50⟩ := by
  constructor
  · exact (cropImage_smart_shortcut ⟨100, 100⟩ 50 50 50 50 10 10 (by decide)
      (by decide) (by decide) (by decide)).1 (by decide)
  · have h := (cropImage_smart_shortcut ⟨100, 100⟩ 50 50 50 50 60 60 (by decide)
      (by decide) (by decide) (by decide)).2 (by decide)
    exact h.trans (by decide)

/-- C5: the dimension clamp returns `source` for `requested = 0`,
`requested` for `0 < requested ≤ source`, `source` for
`requested > source`; it never exceeds `source` and is zero only when
`source` is zero. -/
theorem clampToSourceIfBounded_spec (requested source : Nat) :
    (requested = 0 → clampToSourceIfBounded requested source = source) ∧
    (0 < requested → requested ≤ source →
      clampToSourceIfBounded requested source = requested) ∧
    (source < requested → clampToSourceIfBounded requested source = source) ∧
    clampToSourceIfBounded requested source ≤ source ∧
    (clampToSourceIfBounded requested source = 0 → source = 0) := by
  unfold clampToSourceIfBounded
  split <;> refine ⟨?_, ?_, ?_, ?_, ?_⟩ <;> omega

/-- C6: a crop request of (0, 0) is a no-op: `cropImage` reaches no
underlying crop and returns the image unchanged, for any gravity. -/
theorem cropImage_zero_noop (img : Image) (g : GravityOptions) :
    cropImageCall img 0 0 g = none ∧ cropImage img 0 0 g = .ok img := by
  have h : cropImageCall img 0 0 g = none := by
    simp [cropImageCall]
  exact ⟨h, by simp [cropImage, h]⟩

/-- C7: when the clamped crop equals or exceeds the source on both axes,
`cropImage` succeeds without reaching the underlying crop, leaving the
image's dimensions unchanged. -/
theorem cropImage_covering_noop (img : Image) (cw ch : Nat)
    (g : GravityOptions)
    (hw : img.width ≤ clampToSourceIfBounded cw img.width)
    (hh : img.height ≤ clampToSourceIfBounded ch img.height) :
    cropImageCall img cw ch g = none ∧ cropImage img cw ch g = .ok img := by
  have h : cropImageCall img cw ch g = none := by
    simp only [cropImageCall]
    by_cases h0 : cw = 0 ∧ ch = 0
    · rw [if_pos h0]
    · rw [if_neg h0, if_pos ⟨hw, hh⟩]
  exact ⟨h, by simp [cropImage, h]⟩

/-- C7 (witness): a 150×0 request on a 100×100 image clamps to 100×100 and
is skipped. -/
theorem cropImage_covering_noop_witness :
    cropImageCall ⟨100, 100⟩ 150 0 ⟨.center, 0, 0⟩ = none ∧
      cropImage ⟨100, 100⟩ 150 0 ⟨.center, 0, 0⟩ = .ok ⟨100, 100⟩ :=
  cropImage_covering_noop ⟨100, 100⟩ 150 0 ⟨.center, 0, 0⟩ (by decide) (by decide)

end Imgproxy

namespace Imgproxy

/-- C3 (counterexample): under fill-down, nominal 800×600 against an actual
400×600 image is corrected to 400×300, not the claimed 400×450. -/
theorem fillDown_example_cex :
    fillDownSize 800 600 400 600 ≠ (400, 450) := by decide

/-- C3 (amended): nominal result 800×600, actual resized image 400×600 ⇒
corrected result size 400×300 (the ratio 400/800 = 0.5 applied to the
height), preserving the 4:3 aspect ratio. -/
theorem fillDown_example :
    fillDownSize 800 600 400 600 = (400, 300) ∧
      scaleProportional 600 400 800 = 300 ∧ 3 * 400 = 4 * 300 := by decide

/-- C4: the Pipeline Crop Stage swaps the requested crop width and height
exactly when the total rotation (accumulated angle plus the request's own
rotation) is an odd multiple of 90°, for any reorientation function, state
and options. -/
theorem crop_swap_on_odd_90 (raf : GravityOptions → Nat → Bool → GravityOptions)
    (pctx : PipelineContext) (po : ProcessingOptions) :
    ((∃ k, pctx.angle + po.rotate = 90 * (2 * k + 1)) →
      ((cropCall raf pctx po).1, (cropCall raf pctx po).2.1) =
        (pctx.cropHeight, pctx.cropWidth)) ∧
    ((¬ ∃ k, pctx.angle + po.rotate = 90 * (2 * k + 1)) →
      ((cropCall raf pctx po).1, (cropCall raf pctx po).2.1) =
        (pctx.cropWidth, pctx.cropHeight)) := by
  constructor
  · rintro ⟨k, hk⟩
    have h : (pctx.angle + po.rotate) % 180 = 90 := by omega
    simp [cropCall, h]
  · intro hne
    have h : ¬ (pctx.angle + po.rotate) % 180 = 90 := by
      intro h
      exact hne ⟨(pctx.angle + po.rotate) / 180, by omega⟩
    simp [cropCall, h]

/-- C8: under the fill-down policy the corrected result size never exceeds
the actual image size on either axis; when an axis is constrained, the other
axis is shrunk via `scaleProportional` with the actual-to-nominal ratio of
the constrained axis; and `cropToResult` delegates exactly that corrected
size to the Crop Executor. -/
theorem fillDown_never_upscales (rw rh W H : Nat) (pctx : PipelineContext)
    (img : Image) (po : ProcessingOptions) :
    (fillDownSize rw rh W H).1 ≤ W ∧ (fillDownSize rw rh W H).2 ≤ H ∧
    (W < rw → ¬ H < scaleProportional rh W rw →
      fillDownSize rw rh W H = (W, scaleProportional rh W rw)) ∧
    (¬ W < rw → H < rh →
      fillDownSize rw rh W H = (scaleProportional rw H rh, H)) ∧
    (po.resizingType = .fillDown →
      cropToResult pctx img po =
        (pctx, cropImage img
          (fillDownSize po.resultWidth po.resultHeight img.width img.height).1
          (fillDownSize po.resultWidth po.resultHeight img.width img.height).2
          po.gravity)) := by
  refine ⟨?_, ?_, ?_, ?_, ?_⟩
  · by_cases h1 : W < rw
    · by_cases h2 : H < scaleProportional rh W rw
      · simp only [fillDownSize]
        simp only [if_pos h1, if_pos h2]
        exact scaleProportional_le W H _ h2.le
      · simp only [fillDownSize]
        simp only [if_pos h1, if_neg h2]
        omega
    · by_cases h2 : H < rh
      · simp only [fillDownSize]
        simp only [if_neg h1, if_pos h2]
        exact le_trans (scaleProportional_le rw H rh h2.le) (by omega)
      · simp only [fillDownSize]
        simp only [if_neg h1, if_neg h2]
        omega
  · by_cases h1 : W < rw
    · by_cases h2 : H < scaleProportional rh W rw
      · simp only [fillDownSize]
        simp only [if_pos h1, if_pos h2]
        omega
      · simp only [fillDownSize]
        simp only [if_pos h1, if_neg h2]
        omega
    · by_cases h2 : H < rh
      · simp only [fillDownSize]
        simp only [if_neg h1, if_pos h2]
        omega
      · simp only [fillDownSize]
        simp only [if_neg h1, if_neg h2]
        omega
  · intro h1 h2
    simp only [fillDownSize]
    simp only [if_pos h1, if_neg h2]
  · intro h1 h2
    simp only [fillDownSize]
    simp only [if_neg h1, if_pos h2]
  · intro hfd
    simp only [cropToResult, resultSize, if_pos hfd]

/-- C10: the Pipeline Crop Stage never mutates the pipeline state it reads:
the state after `crop` equals the state before, field by field (the Go code
reorients only a local copy of the gravity struct). -/
theorem crop_preserves_state (raf : GravityOptions → Nat → Bool → GravityOptions)
    (pctx : PipelineContext) (img : Image) (po : ProcessingOptions) :
    (crop raf pctx img po).1 = pctx ∧
    (crop raf pctx img po).1.cropGravity = pctx.cropGravity ∧
    (crop raf pctx img po).1.angle = pctx.angle ∧
    (crop raf pctx img po).1.flip = pctx.flip ∧
    (crop raf pctx img po).1.cropWidth = pctx.cropWidth ∧
    (crop raf pctx img po).1.cropHeight = pctx.cropHeight := by
  simp [crop]

/-- C9: with metrics disabled (the initial state, or `Init` run with an
empty bind address), every observability entry point leaves the metric state
untouched, the returned cancel closures are the identity, and nothing
returns an error. -/
theorem prom_disabled_noop (s sc : Prom.PromState) (hd : s.enabled = false)
    (lbl : String) (sz : Int) (d : ℚ) (listenOk : Bool) :
    Prom.promInitial.enabled = false ∧
    Prom.Init "" s = s ∧
    (Prom.StartRequest s).1 = s ∧ (Prom.StartRequest s).2 d sc = sc ∧
    (Prom.StartQueueSegment s).1 = s ∧
    (Prom.StartQueueSegment s).2 d sc = sc ∧
    (Prom.StartDownloadingSegment s).1 = s ∧
    (Prom.StartDownloadingSegment s).2 d sc = sc ∧
    (Prom.StartProcessingSegment s).1 = s ∧
    (Prom.StartProcessingSegment s).2 d sc = sc ∧
    Prom.IncrementErrorsTotal lbl s = s ∧
    Prom.ObserveBufferSize lbl sz s = s ∧
    Prom.SetBufferDefaultSize lbl sz s = s ∧
    Prom.SetBufferMaxSize lbl sz s = s ∧
    (Prom.StartServer listenOk s).1 = s ∧
    (Prom.StartServer listenOk s).2 = none := by
  refine ⟨rfl, rfl, ?_, ?_, ?_, ?_, ?_, ?_, ?_, ?_, ?_, ?_, ?_, ?_, ?_, ?_⟩ <;>
    simp [Prom.StartRequest, Prom.StartQueueSegment,
      Prom.StartDownloadingSegment, Prom.StartProcessingSegment,
      Prom.IncrementErrorsTotal, Prom.ObserveBufferSize,
      Prom.SetBufferDefaultSize, Prom.SetBufferMaxSize, Prom.StartServer, hd]

/-- C9 (witness): the disabled no-op property evaluated at the initial
state with concrete label, size, duration and listen outcome. -/
theorem prom_disabled_noop_witness :
    Prom.promInitial.enabled = false ∧
    Prom.Init "" Prom.promInitial = Prom.promInitial ∧
    (Prom.StartRequest Prom.promInitial).1 = Prom.promInitial ∧
    (Prom.StartRequest Prom.promInitial).2 1 Prom.promInitial = Prom.promInitial ∧
    (Prom.StartQueueSegment Prom.promInitial).1 = Prom.promInitial ∧
    (Prom.StartQueueSegment Prom.promInitial).2 1 Prom.promInitial = Prom.promInitial ∧
    (Prom.StartDownloadingSegment Prom.promInitial).1 = Prom.promInitial ∧
    (Prom.StartDownloadingSegment Prom.promInitial).2 1 Prom.promInitial = Prom.promInitial ∧
    (Prom.StartProcessingSegment Prom.promInitial).1 = Prom.promInitial ∧
    (Prom.StartProcessingSegment Prom.promInitial).2 1 Prom.promInitial = Prom.promInitial ∧
    Prom.IncrementErrorsTotal "processing" Prom.promInitial = Prom.promInitial ∧
    Prom.ObserveBufferSize "download" 4096 Prom.promInitial = Prom.promInitial ∧
    Prom.SetBufferDefaultSize "download" 4096 Prom.promInitial = Prom.promInitial ∧
    Prom.SetBufferMaxSize "download" 4096 Prom.promInitial = Prom.promInitial ∧
    (Prom.StartServer true Prom.promInitial).1 = Prom.promInitial ∧
    (Prom.StartServer true Prom.promInitial).2 = none :=
  prom_disabled_noop Prom.promInitial Prom.promInitial rfl "processing" 4096 1 true

end Imgproxy
